import Mathlib

/-!
# Verification of the NATS backend for restic

Shallow embedding of `src/internal/backend/nats` (the chunked
request/reply protocol in `protocol.go`, the typed command dispatch and
backend facade in `nats.go`) and of the configuration parser.
Payload bytes are modelled as lists of naturals; bus messages are
modelled by the fields the protocol inspects (subject, chunk headers,
data); the effects of a send path are modelled as an explicit trace of
bus actions.
-/

/-- Payload bytes (`[]byte` in the source). -/
abbrev Bytes := List Nat

/-! ## maxchunksize (protocol.go lines 182-183 and 263-264)

Both chunk-send operations execute the two consecutive assignments

    var maxchunksize int = int(0.95 * float32(conn.MaxPayload()))
    maxchunksize = 1024000 * 0.95

The first value is dead (immediately overwritten); it is modelled here
with exact rational arithmetic, which is harmless precisely because it is
dead.  The second line is a Go untyped-constant expression, evaluated
with exact arbitrary-precision arithmetic to the integer 972800. -/
def effectiveMaxchunksize (maxPayload : Nat) : ℚ :=
  let maxchunksize : ℚ := (95 / 100) * (maxPayload : ℚ)
  let maxchunksize : ℚ := 1024000 * (95 / 100)
  maxchunksize

/-- The pinned chunk size both send operations end up using. -/
def maxchunksize : Nat := 972800

/-! ## Chunk slicing (protocol.go lines 283, 307-317 and 198, 223-233)

For an oversized payload both senders compute `pages := datasize /
maxchunksize` and, for each follow-on chunk `i` in `1..pages`,

    start := maxchunksize * i
    end := maxchunksize * (i + 1)
    if end > len(msg.Data) { end = len(msg.Data) }
    chunkmsg.Data = msg.Data[start:end]
-/
def chunkSlice (M : Nat) (data : Bytes) (i : Nat) : Bytes :=
  (data.drop (M * i)).take (min (M * (i + 1)) data.length - M * i)

/-- The ordered data slices of the follow-on chunks emitted by
`ChunkSendRequestMsgWithContext` for a payload of length `≥ M`:
`pages = data.length / M` chunks with sequence numbers `1..pages`. -/
def requestChunks (M : Nat) (data : Bytes) : List Bytes :=
  (List.range (data.length / M)).map (fun j => chunkSlice M data (j + 1))

/-! ## Send-path traces -/

/-- One message-emitting bus call on a send path.  `request` models
`conn.RequestMsgWithContext` (blocks until the ack/reply returns),
`publish` models `conn.PublishMsg` (fire-and-forget), `respond` models
`replyto.RespondMsg` (fire-and-forget reply to an inbox).  `seq` is the
`X-RNS-CHUNKS-SEQ` header value (0 stands for the initial message, which
carries no sequence header). -/
inductive SendAction
  | request (subject : String) (seq : Nat) (data : Bytes)
  | publish (subject : String) (seq : Nat) (data : Bytes)
  | respond (subject : String) (data : Bytes)
deriving DecidableEq

/-- Whether an action is a blocking request-with-context. -/
def SendAction.isRequest : SendAction → Bool
  | .request _ _ _ => true
  | _ => false

/-- protocol.go lines 258-332, `ChunkSendRequestMsgWithContext`: the bus
actions of the happy path (message id set, control reply carries the
chunk subject, no transport failures; failures abort the trace early and
emit no further messages).  For `len(msg.Data) < maxchunksize` a single
request on the command subject; otherwise the initial request carrying
`msg.Data[:maxchunksize]` followed by `pages` follow-on chunks, every one
of them sent with `conn.RequestMsgWithContext` (lines 319-323). -/
def chunkSendRequestTrace (M : Nat) (cmdSubject chunkSubject : String) (data : Bytes) :
    List SendAction :=
  if data.length < M then
    [SendAction.request cmdSubject 0 data]
  else
    SendAction.request cmdSubject 0 (data.take M) ::
      (List.range (data.length / M)).map
        (fun j => SendAction.request chunkSubject (j + 1) (chunkSlice M data (j + 1)))

/-- protocol.go lines 177-256, `ChunkSendReplyMsgWithContext`: the bus
actions of the happy path.  A short reply is a single `RespondMsg`
(line 190); an oversized reply sends the initial chunk with
`RequestMsgWithContext` (line 207), requests chunks `1..pages-1`
(lines 236-242) and publishes the final chunk `pages` fire-and-forget
(lines 243-248). -/
def chunkSendReplyTrace (M : Nat) (replySubject chunkSubject : String) (data : Bytes) :
    List SendAction :=
  if data.length < M then
    [SendAction.respond replySubject data]
  else
    SendAction.request replySubject 0 (data.take M) ::
      (List.range (data.length / M)).map
        (fun j =>
          if j + 1 < data.length / M then
            SendAction.request chunkSubject (j + 1) (chunkSlice M data (j + 1))
          else
            SendAction.publish chunkSubject (j + 1) (chunkSlice M data (j + 1)))

/-! ## Receiver reassembly (protocol.go lines 334-394) -/

/-- What the receiver loop can observe while waiting on the select at
lines 369-389: a chunk message arriving on the chunk channel, or the
context being cancelled / its deadline firing (`<-ctx.Done()`). -/
inductive RecvEvent
  | chunk (data : Bytes)
  | ctxDone
deriving DecidableEq

/-- Outcome of `ChunkReadRequestMsgWithContext`.  `completed` carries the
reassembled payload; `deadline` is the `context.DeadlineExceeded` return
of line 388; `ackFailed` is the "Chunk Reply Error" return of line 380;
`subFailed` is the failed `QueueSubscribeSyncWithChan` of line 356;
`blocked` marks a run whose schedule ended while the loop was still
waiting (the real program blocks, so no exit happens). -/
inductive ReadOutcome
  | completed (data : Bytes)
  | deadline
  | ackFailed
  | subFailed
  | blocked
deriving DecidableEq

/-- The receive loop of `ChunkReadRequestMsgWithContext` (lines 367-390):
`for i := 1; i <= pages; i++` select on the chunk channel and `ctx.Done`,
appending each received chunk's data to the accumulator; chunks with
`i < pages` are acked (`chunk.RespondMsg`, whose success is modelled by
`ackOk i`).  The boolean in the result records whether the deferred
`sub.Unsubscribe()` (line 360) ran, i.e. whether the function exited. -/
def readChunksGo (ackOk : Nat → Bool) (pages : Nat) :
    List RecvEvent → Nat → Bytes → ReadOutcome × Bool
  | [], i, acc =>
    if pages < i then (ReadOutcome.completed acc, true) else (ReadOutcome.blocked, false)
  | RecvEvent.ctxDone :: _, i, acc =>
    if pages < i then (ReadOutcome.completed acc, true) else (ReadOutcome.deadline, true)
  | RecvEvent.chunk d :: rest, i, acc =>
    if pages < i then (ReadOutcome.completed acc, true)
    else if i < pages then
      if ackOk i then readChunksGo ackOk pages rest (i + 1) (acc ++ d)
      else (ReadOutcome.ackFailed, true)
    else (ReadOutcome.completed (acc ++ d), true)

/-- The environment a reply is read in: the reply's `X-RNS-CHUNKS` header
(`none` when absent, i.e. a single-shot reply), the reply's data, whether
the chunk-channel subscription succeeds, whether each chunk ack succeeds,
and the schedule of events observed while waiting for chunks. -/
structure ReplyEnv where
  chunkHeader : Option Nat
  data : Bytes
  subOk : Bool
  ackOk : Nat → Bool
  evs : List RecvEvent

/-- protocol.go lines 334-394, `ChunkReadRequestMsgWithContext`, reduced
to its observable outcome and whether the chunk subscription was
released.  A reply without the chunk header is returned unchanged and no
subscription is ever created (line 340 guard); otherwise the receiver
subscribes to the negotiated chunk subject, answers with the transfer id
(the control respond is elided from the model) and runs the receive
loop. -/
def readReplyModel (env : ReplyEnv) : ReadOutcome × Bool :=
  match env.chunkHeader with
  | none => (ReadOutcome.completed env.data, false)
  | some pages =>
    if env.subOk then readChunksGo env.ackOk pages env.evs 1 env.data
    else (ReadOutcome.subFailed, false)

/-- `ChunkSendRequestMsgWithContext` as trace plus result: whichever path
is taken, the reply eventually obtained (the single-shot reply at
line 276, or the final chunk's ack-or-reply at line 328) is passed
through `ChunkReadRequestMsgWithContext`. -/
def chunkSendRequestModel (M : Nat) (cmdSubject chunkSubject : String) (data : Bytes)
    (env : ReplyEnv) : List SendAction × (ReadOutcome × Bool) :=
  (chunkSendRequestTrace M cmdSubject chunkSubject data, readReplyModel env)

/-- An ack function under which every chunk acknowledgment succeeds. -/
def allAcksOk : Nat → Bool := fun _ => true

/-! ## Typed command dispatch (nats.go lines 90-188) -/

/-- The command tags of protocol.go lines 16-26. -/
inductive NatsCommand
  | NatsOpenCmd | NatsStatCmd | NatsMkdirCmd | NatsSaveCmd
  | NatsListCmd | NatsLoadCmd | NatsRemoveCmd
deriving DecidableEq

/-- The dynamic type of the `send`/`recv` interface arguments of
`SendMsgWithReply`, as far as the type switches of nats.go lines 95-153
can distinguish them. -/
inductive GoType
  | openOp | statOp | mkdirOp | saveOp | listOp | loadOp | removeOp
  | openResultPtr | statResultPtr | mkdirResultPtr | saveResultPtr
  | listResultPtr | loadResultPtr | removeResultPtr
  | otherType
deriving DecidableEq

/-- The request type each command tag demands (nats.go type assertions on
`send`). -/
def expectedSendType : NatsCommand → GoType
  | .NatsOpenCmd => .openOp
  | .NatsStatCmd => .statOp
  | .NatsMkdirCmd => .mkdirOp
  | .NatsSaveCmd => .saveOp
  | .NatsListCmd => .listOp
  | .NatsLoadCmd => .loadOp
  | .NatsRemoveCmd => .removeOp

/-- The reply-slot type each command tag demands (nats.go type assertions
on `recv`: a pointer to the matching result struct). -/
def expectedRecvType : NatsCommand → GoType
  | .NatsOpenCmd => .openResultPtr
  | .NatsStatCmd => .statResultPtr
  | .NatsMkdirCmd => .mkdirResultPtr
  | .NatsSaveCmd => .saveResultPtr
  | .NatsListCmd => .listResultPtr
  | .NatsLoadCmd => .loadResultPtr
  | .NatsRemoveCmd => .removeResultPtr

/-- The operation name assigned in each switch arm (nats.go lines
103, 111, 119, 127, 135, 143, 151). -/
def operationName : NatsCommand → String
  | .NatsOpenCmd => "open"
  | .NatsStatCmd => "stat"
  | .NatsMkdirCmd => "mkdir"
  | .NatsSaveCmd => "save"
  | .NatsListCmd => "list"
  | .NatsLoadCmd => "load"
  | .NatsRemoveCmd => "remove"

/-- The environment of one dispatch: whether encoding the request
succeeds (line 168), whether the chunked round-trip succeeds (line 180),
and whether decoding the reply succeeds (line 184). -/
structure DispatchEnv where
  encodeOk : Bool
  transportOk : Bool
  decodeOk : Bool
deriving DecidableEq

/-- Results of `SendMsgWithReply`. -/
inductive DispatchResult
  | ok | schemaMismatchSend | schemaMismatchRecv
  | encodeFailed | transportFailed | decodeFailed
deriving DecidableEq

/-- Observable effects of one `SendMsgWithReply` call: how many semaphore
tokens it acquired and released, whether anything was sent on the bus,
the command subject, and the result. -/
structure DispatchTrace where
  tokensAcquired : Nat
  tokensReleased : Nat
  busSent : Bool
  subject : String
  result : DispatchResult
deriving DecidableEq

/-- nats.go lines 90-188, `Backend.SendMsgWithReply`.  Line 92 acquires
one semaphore token and the `defer be.sem.ReleaseToken()` of line 93 runs
on every return below, so each exit records one acquisition and one
release.  The type switch rejects a mismatched request or reply slot
before the message is built, so nothing reaches the bus on those paths;
an encode failure also returns before the round-trip; transport and
decode failures happen after the request went out. -/
def sendMsgWithReply (op : NatsCommand) (sendT recvT : GoType) (env : DispatchEnv) :
    DispatchTrace :=
  let subject := "repo.commands." ++ operationName op
  if sendT ≠ expectedSendType op then
    ⟨1, 1, false, subject, DispatchResult.schemaMismatchSend⟩
  else if recvT ≠ expectedRecvType op then
    ⟨1, 1, false, subject, DispatchResult.schemaMismatchRecv⟩
  else if env.encodeOk = false then
    ⟨1, 1, false, subject, DispatchResult.encodeFailed⟩
  else if env.transportOk = false then
    ⟨1, 1, true, subject, DispatchResult.transportFailed⟩
  else if env.decodeOk = false then
    ⟨1, 1, true, subject, DispatchResult.decodeFailed⟩
  else
    ⟨1, 1, true, subject, DispatchResult.ok⟩

/-! ## Backend facade (nats.go lines 260-417) -/

/-- The facade operations named by the spec's cancellation claim. -/
inductive FacadeOp
  | save | load | stat | list | remove | mkdir
deriving DecidableEq

/-- Which context value a facade operation passes to its bus round-trip. -/
inductive CtxArg
  | caller
  | background
deriving DecidableEq

/-- The context argument each facade operation hands to
`SendMsgWithReply`: nats.go line 306 (Save), 327 (Load), 345 (Stat),
368 (List), 274 (Remove), 409 (Mkdir) all pass `context.Background()`,
not the method's `ctx` parameter. -/
def facadeDispatchCtx : FacadeOp → CtxArg
  | .save => .background
  | .load => .background
  | .stat => .background
  | .list => .background
  | .remove => .background
  | .mkdir => .background

/-- Whether the context value handed to the bus observes the caller's
cancellation: the caller's own context does, a fresh
`context.Background()` never does. -/
def ctxObservesCancel (callerCancelled : Bool) : CtxArg → Bool
  | .caller => callerCancelled
  | .background => false

/-- The remote Stat reply (protocol.go lines 40-44). -/
structure StatResultM where
  ok : Bool
  size : Int
  name : String
deriving DecidableEq

/-- Outcome of `Backend.Stat`: a `restic.FileInfo`, a wrapped
communication error ("statOp Failed"), or the `errors.New("File does not
exist")` error of line 351. -/
inductive StatOutcome
  | info (size : Int) (name : String)
  | commError
  | fileNotExist
deriving DecidableEq

/-- nats.go lines 341-353, `Backend.Stat`: `r = none` models a failed
`SendMsgWithReply`; on `result.Ok` the file info takes the size from the
reply and the name from the handle (`h.Name`). -/
def statModel (handleName : String) (r : Option StatResultM) : StatOutcome :=
  match r with
  | none => StatOutcome.commError
  | some res =>
    if res.ok then StatOutcome.info res.size handleName else StatOutcome.fileNotExist

/-- nats.go lines 260-267, `Backend.Test`: calls Stat and returns
`(false, nil)` whenever Stat errored, `(true, nil)` otherwise.  The
second component models the returned error value (`none` is Go's
`nil`). -/
def testModel (handleName : String) (r : Option StatResultM) : Bool × Option String :=
  match statModel handleName r with
  | StatOutcome.info _ _ => (true, none)
  | _ => (false, none)

/-! ## Configuration parsing (`ParseConfig`) -/

/-- How the tail of `ParseConfig` ends: a Go runtime panic
(index out of range) or a normal return carrying the derived repo. -/
inductive ParseOutcome
  | panicIndex
  | okRepo (repo : List Char)
deriving DecidableEq

/-- `ParseConfig` from line 42 on (after the prefix check accepted the
string and `url.Parse` succeeded), operating on the parsed URL's path:

    var repo string
    if cfg.Server.Path[0] == '/' { repo = cfg.Server.Path[1:] }
    if repo[len(repo)-1] == '/' { repo = repo[0 : len(repo)-1] }
    repo = strings.Replace(repo, "/", ".", -1)

`Path[0]` panics when the path is empty, and `repo[len(repo)-1]` panics
when `repo` is empty (index `-1`), which happens when the path is exactly
"/" or does not begin with '/'. -/
def parseConfigPath (path : List Char) : ParseOutcome :=
  match path with
  | [] => ParseOutcome.panicIndex
  | c :: rest =>
    let repo : List Char := if c = '/' then rest else []
    match repo.getLast? with
    | none => ParseOutcome.panicIndex
    | some lastc =>
      let repo2 := if lastc = '/' then repo.dropLast else repo
      ParseOutcome.okRepo (repo2.map (fun ch => if ch = '/' then '.' else ch))

/-! ## Helper lemmas -/

/-- Folding the follow-on chunk slices `1..k` onto the initial slice
rebuilds the prefix of `data` up to `min (M * (k + 1)) data.length`. -/
lemma foldl_chunkSlice (M : Nat) (data : Bytes) :
    ∀ k, k ≤ data.length / M →
      List.foldl (fun a b => a ++ b) (data.take (min (M * 1) data.length))
        ((List.range k).map (fun j => chunkSlice M data (j + 1)))
      = data.take (min (M * (k + 1)) data.length) := by
  intro k
  induction k with
  | zero => intro _; simp
  | succ k ih =>
    intro hk
    have hk' : k ≤ data.length / M := Nat.le_of_succ_le hk
    have h1 : M * (k + 1) ≤ data.length := by
      calc M * (k + 1) ≤ M * (data.length / M) := mul_le_mul_left' hk M
        _ = data.length / M * M := Nat.mul_comm _ _
        _ ≤ data.length := Nat.div_mul_le_self _ _
    rw [List.range_succ, List.map_append, List.foldl_append, ih hk']
    simp only [List.map_cons, List.map_nil, List.foldl_cons, List.foldl_nil]
    rw [chunkSlice, Nat.min_eq_left h1, ← List.take_add]
    have h2 : M * (k + 1) ≤ min (M * (k + 2)) data.length :=
      le_min (mul_le_mul_left' (by omega) M) h1
    have h3 : M * (k + 1) + (min (M * (k + 2)) data.length - M * (k + 1))
        = min (M * (k + 2)) data.length := Nat.add_sub_cancel' h2
    rw [h3]

/-- A receive loop that is fed exactly the remaining chunks, all acks
succeeding, completes with the chunks folded onto the accumulator. -/
lemma readChunksGo_completes (ackOk : Nat → Bool) (pages : Nat) (hack : ∀ j, ackOk j = true) :
    ∀ (chunks : List Bytes) (i : Nat) (acc : Bytes),
      i + chunks.length = pages + 1 →
      readChunksGo ackOk pages (chunks.map RecvEvent.chunk) i acc
        = (ReadOutcome.completed (List.foldl (fun a b => a ++ b) acc chunks), true) := by
  intro chunks
  induction chunks with
  | nil =>
    intro i acc h
    simp only [List.length_nil] at h
    simp only [List.map_nil, List.foldl_nil, readChunksGo]
    rw [if_pos (by omega)]
  | cons d rest ih =>
    intro i acc h
    simp only [List.length_cons] at h
    simp only [List.map_cons, List.foldl_cons, readChunksGo]
    rw [if_neg (by omega)]
    by_cases hi : i < pages
    · rw [if_pos hi, hack i]
      simp only [if_true]
      exact ih (i + 1) (acc ++ d) (by omega)
    · rw [if_neg hi]
      have hrest : rest = [] := by
        have : rest.length = 0 := by omega
        exact List.eq_nil_of_length_eq_zero this
      subst hrest
      simp

/-- If the context-done event arrives while the loop is still waiting for
a chunk, the loop returns the deadline error with the subscription
released. -/
lemma readChunksGo_ctxDone (ackOk : Nat → Bool) (pages : Nat) (hack : ∀ j, ackOk j = true) :
    ∀ (pre : List Bytes) (i : Nat) (acc : Bytes) (rest : List RecvEvent),
      i + pre.length ≤ pages →
      readChunksGo ackOk pages (pre.map RecvEvent.chunk ++ RecvEvent.ctxDone :: rest) i acc
        = (ReadOutcome.deadline, true) := by
  intro pre
  induction pre with
  | nil =>
    intro i acc rest h
    simp only [List.map_nil, List.nil_append, readChunksGo]
    rw [if_neg (by omega)]
  | cons d pre' ih =>
    intro i acc rest h
    simp only [List.length_cons] at h
    simp only [List.map_cons, List.cons_append, readChunksGo]
    rw [if_neg (by omega), if_pos (by omega), hack i]
    simp only [if_true]
    exact ih (i + 1) (acc ++ d) rest (by omega)

/-- Every exit of the receive loop (any outcome other than a blocked
schedule) has run the deferred unsubscribe. -/
lemma readChunksGo_unsub (ackOk : Nat → Bool) (pages : Nat) :
    ∀ (evs : List RecvEvent) (i : Nat) (acc : Bytes),
      (readChunksGo ackOk pages evs i acc).1 ≠ ReadOutcome.blocked →
      (readChunksGo ackOk pages evs i acc).2 = true := by
  intro evs
  induction evs with
  | nil =>
    intro i acc h
    by_cases hp : pages < i
    · simp [readChunksGo, hp]
    · simp [readChunksGo, hp] at h
  | cons e rest ih =>
    intro i acc h
    cases e with
    | ctxDone =>
      by_cases hp : pages < i <;> simp [readChunksGo, hp]
    | chunk d =>
      by_cases hp : pages < i
      · simp [readChunksGo, hp]
      · by_cases hlt : i < pages
        · by_cases hok : ackOk i = true
          · simp only [readChunksGo, if_neg hp, if_pos hlt, hok, if_true] at h ⊢
            exact ih (i + 1) (acc ++ d) h
          · simp [readChunksGo, hp, hlt, hok]
        · simp [readChunksGo, hp, hlt]

/-! ## Claims -/

/-- C1: Chunking is loss-free and order-preserving.  For a payload of
length at least `M`, `ChunkSendRequestMsgWithContext` emits exactly
`data.length / M` follow-on chunks, chunk `i = j + 1` carries the bytes
`D[i*M : min ((i+1)*M) |D|]`, and the receiver's reassembly loop, fed the
chunks in order starting from the initial message's first `M` bytes,
reconstructs exactly the original payload. -/
theorem C1_chunking_lossfree (M : Nat) (data : Bytes) (j : Nat) (cs qs : String)
    (hM : 0 < M) (hlen : M ≤ data.length) (hj : j < data.length / M) :
    (chunkSendRequestTrace M cs qs data).head? = some (SendAction.request cs 0 (data.take M))
    ∧ (requestChunks M data).length = data.length / M
    ∧ (requestChunks M data)[j]? =
        some ((data.take (min (M * (j + 2)) data.length)).drop (M * (j + 1)))
    ∧ readChunksGo allAcksOk (data.length / M)
        ((requestChunks M data).map RecvEvent.chunk) 1 (data.take M)
      = (ReadOutcome.completed data, true) := by
  refine ⟨?_, by simp [requestChunks], ?_, ?_⟩
  · rw [chunkSendRequestTrace, if_neg (not_lt.2 hlen)]
    rfl
  · rw [requestChunks, List.getElem?_map, List.getElem?_range hj]
    simp only [Option.map_some']
    congr 1
    rw [chunkSlice, List.drop_take]
  · have hfold : List.foldl (fun a b => a ++ b) (data.take (min (M * 1) data.length))
        ((List.range (data.length / M)).map (fun j => chunkSlice M data (j + 1)))
        = data := by
      rw [foldl_chunkSlice M data (data.length / M) le_rfl]
      have h1 : M * (data.length / M) + data.length % M = data.length :=
        Nat.div_add_mod _ _
      have h2 : data.length % M < M := Nat.mod_lt _ hM
      have h3 : data.length < M * (data.length / M + 1) := by
        rw [Nat.mul_succ]; omega
      rw [Nat.min_eq_right (Nat.le_of_lt h3)]
      exact List.take_length data
    rw [readChunksGo_completes allAcksOk (data.length / M) (fun _ => rfl)
        (requestChunks M data) 1 (data.take M) (by simp [requestChunks, Nat.add_comm])]
    rw [show data.take M = data.take (min (M * 1) data.length) by
          rw [Nat.mul_one, Nat.min_eq_left hlen]]
    rw [requestChunks, hfold]

/-- C1 witness: `M = 2`, payload `[1,2,3,4,5]`: two follow-on chunks,
chunk 2 carries `[5]`, and reassembly rebuilds the payload. -/
theorem C1_chunking_lossfree_witness :
    (0 < 2 ∧ 2 ≤ List.length [1, 2, 3, 4, 5] ∧ 1 < List.length [1, 2, 3, 4, 5] / 2)
    ∧ ((chunkSendRequestTrace 2 "cmd" "chunk" [1, 2, 3, 4, 5]).head?
        = some (SendAction.request "cmd" 0 (List.take 2 [1, 2, 3, 4, 5]))
      ∧ (requestChunks 2 [1, 2, 3, 4, 5]).length = List.length [1, 2, 3, 4, 5] / 2
      ∧ (requestChunks 2 [1, 2, 3, 4, 5])[1]? =
          some ((List.take (min (2 * (1 + 2)) (List.length [1, 2, 3, 4, 5])) [1, 2, 3, 4, 5]).drop
            (2 * (1 + 1)))
      ∧ readChunksGo allAcksOk (List.length [1, 2, 3, 4, 5] / 2)
          ((requestChunks 2 [1, 2, 3, 4, 5]).map RecvEvent.chunk) 1
          (List.take 2 [1, 2, 3, 4, 5])
        = (ReadOutcome.completed [1, 2, 3, 4, 5], true)) :=
  ⟨by decide,
    C1_chunking_lossfree 2 [1, 2, 3, 4, 5] 1 "cmd" "chunk" (by decide) (by decide) (by decide)⟩

/-- C2 counterexample: the claim says the final chunk of a chunked
transfer is published fire-and-forget, but on the request path
(`ChunkSendRequestMsgWithContext`) every follow-on chunk, the final one
included, is sent with `conn.RequestMsgWithContext` (protocol.go lines
319-323).  Concretely, for `M = 2` and the 5-byte payload below the
transfer has `P = 2` follow-on chunks and the final chunk is a request,
not a publish. -/
theorem C2_counterexample :
    chunkSendRequestTrace 2 "cmd" "chunk" [10, 20, 30, 40, 50]
      = [SendAction.request "cmd" 0 [10, 20],
         SendAction.request "chunk" 1 [30, 40],
         SendAction.request "chunk" 2 [50]]
    ∧ (chunkSendRequestTrace 2 "cmd" "chunk" [10, 20, 30, 40, 50]).getLast?
        = some (SendAction.request "chunk" 2 [50])
    ∧ SendAction.request "chunk" 2 [50] ≠ SendAction.publish "chunk" 2 [50] := by
  decide

/-- C2 (amended): on the reply path (`ChunkSendReplyMsgWithContext`) the
final chunk `i = P` is published fire-and-forget while the initial
message and every earlier chunk are sent with request-with-context; on
the request path (`ChunkSendRequestMsgWithContext`) the initial message
and every follow-on chunk, the final one included, are sent with
request-with-context (the final chunk's reply is the logical reply). -/
theorem C2_final_chunk_delivery (M : Nat) (data : Bytes) (rs qs : String)
    (hM : 0 < M) (hlen : M ≤ data.length) :
    (chunkSendReplyTrace M rs qs data).getLast?
      = some (SendAction.publish qs (data.length / M) (chunkSlice M data (data.length / M)))
    ∧ (chunkSendReplyTrace M rs qs data).dropLast.all SendAction.isRequest = true
    ∧ (chunkSendRequestTrace M rs qs data).all SendAction.isRequest = true := by
  have hP : 1 ≤ data.length / M := (Nat.one_le_div_iff hM).2 hlen
  obtain ⟨k, hk⟩ : ∃ k, data.length / M = k + 1 := ⟨data.length / M - 1, by omega⟩
  have hnlt : ¬ data.length < M := by omega
  refine ⟨?_, ?_, ?_⟩
  · rw [chunkSendReplyTrace, if_neg hnlt, hk, List.range_succ, List.map_append]
    simp only [List.map_cons, List.map_nil]
    rw [← List.cons_append, List.getLast?_concat]
    rw [if_neg (by omega)]
  · rw [chunkSendReplyTrace, if_neg hnlt, hk, List.range_succ, List.map_append]
    simp only [List.map_cons, List.map_nil]
    rw [← List.cons_append, List.dropLast_concat]
    rw [List.all_eq_true]
    intro a ha
    rcases List.mem_cons.1 ha with h | h
    · subst h; rfl
    · obtain ⟨j, hj, rfl⟩ := List.mem_map.1 h
      rw [if_pos (by have := List.mem_range.1 hj; omega)]
      rfl
  · rw [chunkSendRequestTrace, if_neg hnlt, List.all_eq_true]
    intro a ha
    rcases List.mem_cons.1 ha with h | h
    · subst h; rfl
    · obtain ⟨j, _, rfl⟩ := List.mem_map.1 h
      rfl

/-- C2 witness for the amended claim: `M = 2`, payload `[1,2,3,4,5]`,
`P = 2`: the reply path requests chunk 1 and publishes chunk 2; the
request path requests everything. -/
theorem C2_final_chunk_delivery_witness :
    (0 < 2 ∧ 2 ≤ List.length [1, 2, 3, 4, 5])
    ∧ ((chunkSendReplyTrace 2 "r" "q" [1, 2, 3, 4, 5]).getLast?
        = some (SendAction.publish "q" (List.length [1, 2, 3, 4, 5] / 2)
            (chunkSlice 2 [1, 2, 3, 4, 5] (List.length [1, 2, 3, 4, 5] / 2)))
      ∧ (chunkSendReplyTrace 2 "r" "q" [1, 2, 3, 4, 5]).dropLast.all SendAction.isRequest = true
      ∧ (chunkSendRequestTrace 2 "r" "q" [1, 2, 3, 4, 5]).all SendAction.isRequest = true) :=
  ⟨by decide, C2_final_chunk_delivery 2 [1, 2, 3, 4, 5] "r" "q" (by decide) (by decide)⟩

/-- C3 counterexample: the claim says every facade operation issues its
bus interaction with the caller's context, but `Backend.Save`
(nats.go line 306) passes `context.Background()` to `SendMsgWithReply`,
so with the caller's context cancelled the context handed to the
request-with-context call still observes no cancellation. -/
theorem C3_counterexample :
    facadeDispatchCtx FacadeOp.save = CtxArg.background
    ∧ ctxObservesCancel true (facadeDispatchCtx FacadeOp.save) = false
    ∧ CtxArg.background ≠ CtxArg.caller := by
  decide

/-- C3 (amended): each of Save, Load, Stat, List, Remove and Mkdir issues
its bus interaction with a fresh background context rather than the
caller's, so the caller's cancellation or deadline never propagates to
the underlying request-with-context calls. -/
theorem C3_background_context (op : FacadeOp) (c : Bool) :
    facadeDispatchCtx op = CtxArg.background
    ∧ ctxObservesCancel c (facadeDispatchCtx op) = false := by
  cases op <;> exact ⟨rfl, rfl⟩

/-- C4: for a payload strictly below `maxchunksize`, the send path is a
single request/reply on the command subject (no chunk message and no
chunk-transfer subscription is created on the send path) and the reply is
passed through `ChunkReadRequestMsgWithContext` to handle a chunked
reply. -/
theorem C4_single_shot (M : Nat) (cs qs : String) (data : Bytes) (env : ReplyEnv)
    (hshort : data.length < M) :
    chunkSendRequestModel M cs qs data env
      = ([SendAction.request cs 0 data], readReplyModel env) := by
  unfold chunkSendRequestModel chunkSendRequestTrace
  rw [if_pos hshort]

/-- C4 witness: a 2-byte payload with `M = 3` is sent as one request on
the command subject and its (unchunked) reply passes through the read
path untouched. -/
theorem C4_single_shot_witness :
    (List.length [1, 2] < 3)
    ∧ chunkSendRequestModel 3 "repo.commands.save" "chunk.send.x" [1, 2]
        ⟨none, [7], true, allAcksOk, []⟩
      = ([SendAction.request "repo.commands.save" 0 [1, 2]],
         readReplyModel ⟨none, [7], true, allAcksOk, []⟩) :=
  ⟨by decide,
    C4_single_shot 3 "repo.commands.save" "chunk.send.x" [1, 2]
      ⟨none, [7], true, allAcksOk, []⟩ (by decide)⟩

/-- C5: every invocation of `SendMsgWithReply` acquires exactly one
semaphore token and releases exactly one on every exit path: success,
schema mismatch on the request or the reply slot, encode failure,
transport failure and decode failure. -/
theorem C5_semaphore_balanced (op : NatsCommand) (sendT recvT : GoType) (env : DispatchEnv) :
    (sendMsgWithReply op sendT recvT env).tokensAcquired = 1
    ∧ (sendMsgWithReply op sendT recvT env).tokensReleased = 1 := by
  unfold sendMsgWithReply
  repeat' split
  all_goals exact ⟨rfl, rfl⟩

/-- C6: if the context ends while the receiver is waiting for a chunk
(any number of chunks already received and acked), reassembly returns the
deadline-exceeded error and the chunk subscription is released; moreover
every exit of the receive loop (completion, ack failure, deadline) runs
the deferred unsubscribe. -/
theorem C6_cancel_teardown (pages : Nat) (ackOk : Nat → Bool) (data acc : Bytes)
    (i : Nat) (pre : List Bytes) (rest evs : List RecvEvent)
    (hlen : pre.length < pages) (hack : ∀ j, ackOk j = true) :
    readReplyModel
        ⟨some pages, data, true, ackOk, pre.map RecvEvent.chunk ++ RecvEvent.ctxDone :: rest⟩
      = (ReadOutcome.deadline, true)
    ∧ ((readChunksGo ackOk pages evs i acc).1 ≠ ReadOutcome.blocked →
        (readChunksGo ackOk pages evs i acc).2 = true) := by
  constructor
  · simp only [readReplyModel]
    rw [if_pos trivial]
    exact readChunksGo_ctxDone ackOk pages hack pre 1 data rest (by omega)
  · exact readChunksGo_unsub ackOk pages evs i acc

/-- C6 witness: two expected chunks, one arrives and is acked, then the
context fires: the read returns deadline-exceeded with the subscription
released. -/
theorem C6_cancel_teardown_witness :
    (List.length [([5] : Bytes)] < 2)
    ∧ (readReplyModel
          ⟨some 2, [1], true, allAcksOk,
            [([5] : Bytes)].map RecvEvent.chunk ++ RecvEvent.ctxDone :: []⟩
        = (ReadOutcome.deadline, true)
      ∧ ((readChunksGo allAcksOk 2 [] 3 []).1 ≠ ReadOutcome.blocked →
          (readChunksGo allAcksOk 2 [] 3 []).2 = true)) :=
  ⟨by decide,
    C6_cancel_teardown 2 allAcksOk [1] [] 3 [([5] : Bytes)] [] [] (by decide) (fun _ => rfl)⟩

/-- C7: for every command tag, a request value that does not match the
tag's request schema, or a reply slot that is not a pointer to the tag's
reply schema, makes `SendMsgWithReply` return a schema-mismatch error
before anything is sent on the bus. -/
theorem C7_schema_mismatch_no_send (op : NatsCommand) (sendT recvT : GoType) (env : DispatchEnv)
    (h : sendT ≠ expectedSendType op ∨ recvT ≠ expectedRecvType op) :
    ((sendMsgWithReply op sendT recvT env).result = DispatchResult.schemaMismatchSend
      ∨ (sendMsgWithReply op sendT recvT env).result = DispatchResult.schemaMismatchRecv)
    ∧ (sendMsgWithReply op sendT recvT env).busSent = false := by
  by_cases h1 : sendT = expectedSendType op
  · have h2 : recvT ≠ expectedRecvType op := h.resolve_left (not_not_intro h1)
    simp [sendMsgWithReply, h1, h2]
  · simp [sendMsgWithReply, h1]

/-- C7 witness: dispatching the Open command with a Stat request body is
rejected as a schema mismatch and nothing reaches the bus. -/
theorem C7_schema_mismatch_no_send_witness :
    (GoType.statOp ≠ expectedSendType NatsCommand.NatsOpenCmd)
    ∧ (((sendMsgWithReply NatsCommand.NatsOpenCmd GoType.statOp GoType.openResultPtr
          ⟨true, true, true⟩).result = DispatchResult.schemaMismatchSend
        ∨ (sendMsgWithReply NatsCommand.NatsOpenCmd GoType.statOp GoType.openResultPtr
            ⟨true, true, true⟩).result = DispatchResult.schemaMismatchRecv)
      ∧ (sendMsgWithReply NatsCommand.NatsOpenCmd GoType.statOp GoType.openResultPtr
          ⟨true, true, true⟩).busSent = false) :=
  ⟨by decide,
    C7_schema_mismatch_no_send NatsCommand.NatsOpenCmd GoType.statOp GoType.openResultPtr
      ⟨true, true, true⟩ (Or.inl (by decide))⟩

/-- C8: when the remote Stat reply carries `ok = true`, Stat returns a
file info with the size from the reply and the name from the handle;
when the reply carries `ok = false`, Stat returns the not-found error,
and Test then returns `(false, nil)`. -/
theorem C8_stat_result (hn nm : String) (sz : Int) :
    statModel hn (some ⟨true, sz, nm⟩) = StatOutcome.info sz hn
    ∧ statModel hn (some ⟨false, sz, nm⟩) = StatOutcome.fileNotExist
    ∧ testModel hn (some ⟨false, sz, nm⟩) = (false, none) :=
  ⟨rfl, rfl, rfl⟩

/-- C9: in both chunk send operations the effective `maxchunksize` is
exactly 972,800 bytes (`1024000 * 0.95`, evaluated exactly by Go's
constant arithmetic), regardless of the connection's advertised
max-payload capacity. -/
theorem C9_maxchunksize_pinned (maxPayload : Nat) :
    effectiveMaxchunksize maxPayload = 972800 ∧ maxchunksize = 972800 := by
  refine ⟨?_, rfl⟩
  norm_num [effectiveMaxchunksize]

/-- C10: once the prefix check has accepted the configuration string,
`ParseConfig` panics with an index-out-of-range exactly when the URL path
is empty, equal to "/", or does not begin with '/'; it returns normally
only when the path has a leading slash and a non-empty remainder. -/
theorem C10_parseconfig_panic (path : List Char) :
    parseConfigPath path = ParseOutcome.panicIndex
      ↔ ¬ (path.head? = some '/' ∧ path.tail ≠ ([] : List Char)) := by
  cases path with
  | nil => simp [parseConfigPath]
  | cons c rest =>
    by_cases hc : c = '/'
    · subst hc
      cases rest with
      | nil => simp [parseConfigPath]
      | cons d ds =>
        have hne : (d :: ds : List Char) ≠ [] := by simp
        obtain ⟨lastc, hl⟩ : ∃ lastc, (d :: ds : List Char).getLast? = some lastc := by
          cases h : (d :: ds : List Char).getLast? with
          | none => exact absurd (List.getLast?_eq_none_iff.1 h) hne
          | some lastc => exact ⟨lastc, rfl⟩
        simp only [parseConfigPath, eq_self_iff_true, if_true]
        rw [hl]
        simp
    · simp only [parseConfigPath, if_neg hc]
      simp [hc]
